import Mathlib

/-!
Verification of the custom-node registry subsystem of `stream-workflow-editor`
(`src/stream_workflow_editor/api/services/custom_node_service.py`).

The Python service is shallowly embedded: pure text algorithms become Lean
functions on `List Char` / `String`; the filesystem and registry file become an
explicit `FState` record threaded through the operations; dynamic module
loading is modelled by a `LoadedClass` value carried by each source file
(the information the loader would produce).  Machine-level concerns (actual
OS mtimes, JSON surface syntax, thread interleavings) are abstracted, but the
control flow and branch structure follow the Python source line by line.
-/

namespace CustomNodeService

/-- ASCII uppercase test, the `[A-Z]` character class of the Python regexes. -/
def isUpperA (c : Char) : Bool := 'A' ≤ c && c ≤ 'Z'

/-- ASCII lowercase test, the `[a-z]` character class of the Python regexes. -/
def isLowerA (c : Char) : Bool := 'a' ≤ c && c ≤ 'z'

/-- ASCII digit test, part of the `[a-z0-9]` class of the second regex. -/
def isDigitA (c : Char) : Bool := '0' ≤ c && c ≤ '9'

/-- First substitution of `camel_to_snake`:
`re.sub('(.)([A-Z][a-z]+)', r'\1_\2', name)` — scan left to right; at a char
followed by an ASCII uppercase letter followed by a maximal nonempty run of
ASCII lowercase letters, insert an underscore between, and continue scanning
after the match (matches are non-overlapping, as for `re.sub`). -/
def sub1F : Nat → List Char → List Char
  | 0, s => s
  | _ + 1, [] => []
  | _ + 1, [c] => [c]
  | n + 1, c :: u :: tl =>
    if isUpperA u then
      let run := tl.takeWhile isLowerA
      if run.isEmpty then c :: sub1F n (u :: tl)
      else c :: '_' :: u :: (run ++ sub1F n (tl.drop run.length))
    else c :: sub1F n (u :: tl)

/-- `sub1F` with enough fuel: the list length bounds the number of scan
steps, since every step consumes at least one character. -/
def sub1 (s : List Char) : List Char := sub1F s.length s

/-- Second substitution of `camel_to_snake`:
`re.sub('([a-z0-9])([A-Z])', r'\1_\2', s1)` — insert an underscore between an
ASCII lowercase letter or digit and a following ASCII uppercase letter,
continuing after each match. -/
def sub2 : List Char → List Char
  | [] => []
  | [c] => [c]
  | c :: u :: tl =>
    if (isLowerA c || isDigitA c) && isUpperA u then c :: '_' :: u :: sub2 tl
    else c :: sub2 (u :: tl)

/-- `camel_to_snake(name)`: the two regex substitutions followed by `.lower()`
(ASCII lowering; plugin class names are ASCII identifiers). -/
def camelToSnake (s : List Char) : List Char := (sub2 (sub1 s)).map Char.toLower

/-- The character list "node", the suffix the id-inference step looks for. -/
def nodeChars : List Char := ['n', 'o', 'd', 'e']

/-- The character list "_node", the canonical id suffix. -/
def unodeChars : List Char := '_' :: nodeChars

/-- Python `str.replace('node', '_node')`: every non-overlapping occurrence of
"node", scanning left to right, is replaced by "_node". -/
def replaceNode : List Char → List Char
  | 'n' :: 'o' :: 'd' :: 'e' :: tl => '_' :: 'n' :: 'o' :: 'd' :: 'e' :: replaceNode tl
  | c :: tl => c :: replaceNode tl
  | [] => []

/-- The class-name fallback of `_extract_node_id_from_file` (method 3):
convert the class name with `camel_to_snake`; keep it if it already ends in
"_node"; else if it ends in "node" apply `replace('node', '_node')` (note:
this replaces every occurrence); else append "_node". -/
def inferNodeId (className : List Char) : List Char :=
  let s := camelToSnake className
  if unodeChars.isSuffixOf s then s
  else if nodeChars.isSuffixOf s then replaceNode s
  else s ++ unodeChars

/-- The single-quote character (written by code point to keep sources plain). -/
def squote : Char := Char.ofNat 39

/-- The backslash character (written by code point). -/
def bslash : Char := Char.ofNat 92

/-- Membership in the regex class `['"]`. -/
def isQuoteCh (c : Char) : Bool := c = squote || c = '"'

/-- The literal head of the registration-marker regex
`@register_node\(['"]([^'"]+)['"]\)`. -/
def regMarker : List Char := "@register_node(".data

/-- Consume an exact literal prefix, returning the remainder. -/
def dropLit : List Char → List Char → Option (List Char)
  | [], s => some s
  | _ :: _, [] => none
  | p :: ps, c :: cs => if c = p then dropLit ps cs else none

/-- Try the registration-marker regex anchored at the head of `s`: the literal
`@register_node(`, a quote, a nonempty run of non-quote characters (the
group), a quote, and `)`.  Returns the group. -/
def matchRegAt (s : List Char) : Option (List Char) :=
  match dropLit regMarker s with
  | none => none
  | some rest =>
    match rest with
    | [] => none
    | q :: rest2 =>
      if isQuoteCh q then
        let body := rest2.takeWhile (fun c => !isQuoteCh c)
        if body.isEmpty then none
        else
          match rest2.drop body.length with
          | q2 :: rp :: _ => if isQuoteCh q2 && rp = ')' then some body else none
          | _ => none
      else none

/-- `re.search` of the registration-marker pattern: the leftmost position at
which `matchRegAt` succeeds. -/
def findRegMarker : List Char → Option (List Char)
  | [] => none
  | c :: tl =>
    match matchRegAt (c :: tl) with
    | some b => some b
    | none => findRegMarker tl

/-- Method 1 of `_extract_node_id_from_file` (also used inline by
`create_custom_node` and the update operations): extract the argument of
`@register_node('...')` from the raw source text without executing it. -/
def extractRegisterNode (text : String) : Option String :=
  (findRegMarker text.data).map List.asString

/-- What dynamically loading a plugin source file yields: the first class in
the module that subclasses the engine's `Node` contract, with its class name
and its `__node_id__` attribute (absent or empty when the registration marker
did not stamp one).  `none` at the file level means loading failed or no such
class exists. -/
structure LoadedClass where
  className : String
  nodeIdAttr : Option String
  deriving DecidableEq

/-- A plugin source file as the scanner sees it: file name, modification
time, raw text, and the result of loading it as a module. -/
structure SrcFile where
  name : String
  mtime : Nat
  text : String
  cls : Option LoadedClass
  deriving DecidableEq

/-- `_extract_node_id_from_file`: method 1 is the raw-text registration
marker; method 2 is the `__node_id__` attribute of the loaded class (Python
truth-tests it, so an empty string falls through); method 3 infers from the
class name.  When the module cannot be loaded (or has no node class) and the
text has no marker, the result is `None`. -/
def extractNodeIdFromFile (f : SrcFile) : Option String :=
  match extractRegisterNode f.text with
  | some i => some i
  | none =>
    match f.cls with
    | none => none
    | some c =>
      match c.nodeIdAttr with
      | some i =>
        if i.isEmpty then some (List.asString (inferNodeId c.className.data))
        else some i
      | none => some (List.asString (inferNodeId c.className.data))

/-- Python `\s` on the ASCII range (the sources and generated code are ASCII
plus the fixed Chinese comment labels, none of which are whitespace). -/
def isPySpace (c : Char) : Bool :=
  c = ' ' || c = '\t' || c = '\n' || c = '\r' || c = Char.ofNat 11 || c = Char.ofNat 12

/-- Consume a maximal whitespace run, returning its length and the rest. -/
def dropWsCount : List Char → Nat × List Char
  | [] => (0, [])
  | c :: tl =>
    if isPySpace c then
      let p := dropWsCount tl
      (p.1 + 1, p.2)
    else (0, c :: tl)

/-- Consume a maximal whitespace run, also reporting whether it contained a
newline (needed for the `\s*\n` part of the optional comment group). -/
def dropWsNl : List Char → Nat × Bool × List Char
  | [] => (0, false, [])
  | c :: tl =>
    if isPySpace c then
      let p := dropWsNl tl
      (p.1 + 1, p.2.1 || c = '\n', p.2.2)
    else (0, false, c :: tl)

/-- The tail `\s*KW\s*=\s*\{` of the parameter-block header regex, anchored at
the head of `s`; returns the number of characters consumed.  Each `\s*` is
forced to end at the first non-space character because the following literal
starts with a non-space character. -/
def matchKwTail (kw : List Char) (s : List Char) : Option Nat :=
  let p1 := dropWsCount s
  match dropLit kw p1.2 with
  | none => none
  | some r2 =>
    let p2 := dropWsCount r2
    match p2.2 with
    | '=' :: r4 =>
      let p3 := dropWsCount r4
      match p3.2 with
      | '{' :: _ => some (p1.1 + kw.length + p2.1 + 1 + p3.1 + 1)
      | _ => none
    | _ => none

/-- One anchored attempt of the header regex
`(\s*#\s*LABEL\s*\n)?\s*KW\s*=\s*\{`.  The optional comment group applies
exactly when the first non-space character is `#` (otherwise the group can
only match empty), so the two alternatives are disjoint and the match length
is determined. -/
def matchHeaderAt (label kw : List Char) (s : List Char) : Option Nat :=
  let p1 := dropWsCount s
  match p1.2 with
  | '#' :: r2 =>
    let p2 := dropWsCount r2
    match dropLit label p2.2 with
    | none => none
    | some r4 =>
      let p3 := dropWsNl r4
      if p3.2.1 then
        match matchKwTail kw p3.2.2 with
        | some m => some (p1.1 + 1 + p2.1 + label.length + p3.1 + m)
        | none => none
      else none
  | _ => matchKwTail kw s

/-- `re.search` of the header regex: leftmost start position, with the
absolute start and end (one past the opening brace) of the match. -/
def searchHeaderAux (label kw : List Char) : Nat → List Char → Option (Nat × Nat)
  | i, [] =>
    match matchHeaderAt label kw [] with
    | some n => some (i, i + n)
    | none => none
  | i, c :: tl =>
    match matchHeaderAt label kw (c :: tl) with
    | some n => some (i, i + n)
    | none => searchHeaderAux label kw (i + 1) tl

/-- Search the whole text for the parameter-block header. -/
def searchHeader (label kw : List Char) (s : List Char) : Option (Nat × Nat) :=
  searchHeaderAux label kw 0 s

/-- The brace-matching loop of `update_custom_node_parameters`, transcribed
branch for branch: `prev` is the previously scanned character, `pos` the
absolute index of the head of the list, `depth` the running `brace_count`,
`inStr`/`strCh` the quote state.  Returns the absolute index of the closing
brace that brings the count to zero, or `none` when the scan runs off the end
(Python then leaves `end_pos` at `start_pos`). -/
def findClose : List Char → Char → Nat → Nat → Bool → Char → Option Nat
  | [], _, _, _, _, _ => none
  | c :: tl, prev, pos, depth, inStr, strCh =>
    if !inStr && isQuoteCh c then
      findClose tl c (pos + 1) depth true c
    else if inStr && c = strCh && prev ≠ bslash then
      findClose tl c (pos + 1) depth false strCh
    else if !inStr then
      if c = '{' then findClose tl c (pos + 1) (depth + 1) inStr strCh
      else if c = '}' then
        if depth = 1 then some pos
        else findClose tl c (pos + 1) (depth - 1) inStr strCh
      else findClose tl c (pos + 1) depth inStr strCh
    else findClose tl c (pos + 1) depth inStr strCh

/-- One generated parameter line, following the f-string in
`update_custom_node_parameters` (the `repr(schema)` text is taken as given). -/
def genParamLine (name : String) (streaming : Bool) (schemaRepr : String) : String :=
  "        \"" ++ name ++ "\": ParameterSchema(\n            is_streaming=" ++
    (if streaming then "True" else "False") ++ ",\n            schema=" ++
    schemaRepr ++ "\n        )"

/-- `',\n'.join(...)` over the generated parameter lines. -/
def genParamsCode (ps : List (String × Bool × String)) : String :=
  String.intercalate ",\n" (ps.map fun p => genParamLine p.1 p.2.1 p.2.2)

/-- Comment label of the input-parameter block (输入参数定义). -/
def inLabel : List Char := "输入参数定义".data

/-- Comment label of the output-parameter block (输出参数定义). -/
def outLabel : List Char := "输出参数定义".data

/-- The INPUT_PARAMS keyword. -/
def inKw : List Char := "INPUT_PARAMS".data

/-- The OUTPUT_PARAMS keyword. -/
def outKw : List Char := "OUTPUT_PARAMS".data

/-- The replacement text spliced in for a block:
`    # LABEL\n    KW = {\n` + generated code + `\n    }`. -/
def insertedBlock (label kw newCode : List Char) : List Char :=
  "    # ".data ++ label ++ "\n    ".data ++ kw ++ " = \x7b\n".data ++
    newCode ++ "\n    \x7d".data

/-- The per-block splice of `update_custom_node_parameters`: find the header,
run the quote-aware brace scan from just past the opening brace (the previous
character is that brace), and replace from the match start through the
closing brace; when the header is absent the text is untouched, and when the
scan finds no closing brace Python's `end_pos` stays at `start_pos`, so the
splice cuts only through the first character past the opening brace. -/
def replaceParamBlock (label kw newCode code : List Char) : List Char :=
  match searchHeader label kw code with
  | none => code
  | some (s, e) =>
    let endPos := (findClose (code.drop e) '{' e 1 false '"').getD e
    code.take s ++ insertedBlock label kw newCode ++ code.drop (endPos + 1)

/-- The full text transformation of `update_custom_node_parameters`: splice
the INPUT_PARAMS block, then the OUTPUT_PARAMS block of the result. -/
def updateParamsTransform (newIn newOut code : List Char) : List Char :=
  replaceParamBlock outLabel outKw newOut (replaceParamBlock inLabel inKw newIn code)

/-- A persisted registry entry: `{"id", "pythonFile", "mtime", "createdAt",
"updatedAt"}`.  Timestamps are abstract clock values. -/
structure RegistryEntry where
  id : String
  pythonFile : String
  mtime : Nat
  createdAt : Nat
  updatedAt : Nat
  deriving DecidableEq

/-- The registry document: the entry list plus the format version. -/
structure Registry where
  custom_nodes : List RegistryEntry
  version : String
  deriving DecidableEq

/-- The filesystem as the service sees it: the custom-nodes directory, the
registry file (parsed; `none` when the file does not exist), and a clock
whose value stamps new writes as their modification time. -/
structure FState where
  files : List SrcFile
  regFile : Option Registry
  clock : Nat
  deriving DecidableEq

/-- Look a file up by name. -/
def findFile (st : FState) (name : String) : Option SrcFile :=
  st.files.find? (fun f => f.name == name)

/-- `Path.exists()` for a file of the managed directory. -/
def fileExists (st : FState) (name : String) : Bool :=
  (findFile st name).isSome

/-- `open(path, 'w')` + write: truncating write that advances the clock and
stamps the file with the new time.  `cls` is what loading the new content
would produce. -/
def writeFile (st : FState) (name text : String) (cls : Option LoadedClass) : FState :=
  let t := st.clock + 1
  if fileExists st name then
    { st with
      files := st.files.map fun f =>
        if f.name == name then { f with text := text, cls := cls, mtime := t } else f,
      clock := t }
  else
    { st with files := st.files ++ [⟨name, t, text, cls⟩], clock := t }

/-- `Path.unlink()`. -/
def deleteFile (st : FState) (name : String) : FState :=
  { st with files := st.files.filter fun f => f.name != name }

/-- `Path.rename()`: keeps content and modification time. -/
def renameFile (st : FState) (oldName newName : String) : FState :=
  { st with files := st.files.map fun f =>
      if f.name == oldName then { f with name := newName } else f }

/-- `save_registry`: the document is written straight to the registry file
(the write discipline itself is modelled separately for the atomicity
claim). -/
def saveRegistryState (reg : Registry) (st : FState) : FState :=
  { st with regFile := some reg }

/-- Python `name.startswith("_")`: the first character is an underscore. -/
def startsWithUnderscore (s : String) : Bool :=
  match s.data with
  | [] => false
  | c :: _ => c = '_'

/-- The scan filter of both reconciliation passes: `glob("*.py")` minus
`__init__.py` and names starting with an underscore (all modelled files are
`.py` files). -/
def scanOk (f : SrcFile) : Bool :=
  f.name != "__init__.py" && !startsWithUnderscore f.name

/-- `_create_node_entry_from_file`'s record shape (with the caller-supplied
mtime already in place). -/
def mkEntry (id fileName : String) (mtime now : Nat) : RegistryEntry :=
  ⟨id, fileName, mtime, now, now⟩

/-- The scan loop of `_auto_scan_nodes`: walk the files, skipping
non-definition files, files with no extractable id, and ids already in the
`existing_ids` set; append an entry for each remaining file and add its id to
the set. -/
def autoScanAux (now : Nat) : List SrcFile → List RegistryEntry → List String → List RegistryEntry
  | [], acc, _ => acc
  | f :: fs, acc, ids =>
    if scanOk f then
      match extractNodeIdFromFile f with
      | none => autoScanAux now fs acc ids
      | some nid =>
        if nid ∈ ids then autoScanAux now fs acc ids
        else autoScanAux now fs (acc ++ [mkEntry nid f.name f.mtime now]) (nid :: ids)
    else autoScanAux now fs acc ids

/-- `_auto_scan_nodes(dir, registry)`: seed `existing_ids` with the ids
already registered and scan the directory. -/
def autoScan (st : FState) (reg : Registry) : Registry :=
  { reg with custom_nodes :=
      autoScanAux st.clock st.files reg.custom_nodes (reg.custom_nodes.map (·.id)) }

/-- `_scan_and_create_registry`: fresh registry, full scan, saved only when
it found at least one node. -/
def scanAndCreate (st : FState) : Registry × FState :=
  let reg := autoScan st { custom_nodes := [], version := "1.0" }
  if reg.custom_nodes.isEmpty then (reg, st)
  else (reg, saveRegistryState reg st)

/-- The entries added for files present in the directory snapshot but not
referenced by any entry (step 3 of `_check_and_update_registry`).  The
content is re-read from the live filesystem (a snapshot path that no longer
exists is skipped, as the Python `open` would fail and be caught), while the
recorded mtime comes from the snapshot, exactly as in the source.  There is
no duplicate-id check in this step. -/
def addNewFiles (st : FState) (now : Nat) : List SrcFile → List RegistryEntry
  | [] => []
  | f :: fs =>
    match findFile st f.name with
    | none => addNewFiles st now fs
    | some g =>
      match extractNodeIdFromFile g with
      | none => addNewFiles st now fs
      | some nid => mkEntry nid f.name f.mtime now :: addNewFiles st now fs

/-- `_update_node_entry`: re-derive the id of a modified file.  When it
differs from the stored id, the source calls `load_registry()` afresh —
`lower` is that re-entrant call with one less stack budget (`none` when the
budget is exhausted, in which case the recursion-limit error raised inside
the call is caught by this function's `except` and everything is left
unchanged).  When the re-loaded registry already has the new id the update
is skipped; otherwise the backing file is renamed when the target name is
free — and the entry's `id` and `updatedAt` are then set unconditionally. -/
def updateNodeEntryGo (lower : Option (FState → Registry × FState))
    (st : FState) (e : RegistryEntry) (f : SrcFile) : RegistryEntry × FState :=
  match extractNodeIdFromFile f with
  | none => (e, st)
  | some nid =>
    if nid = e.id then (e, st)
    else
      match lower with
      | none => (e, st)
      | some load =>
        let lr := load st
        if lr.1.custom_nodes.any (fun n => n.id == nid && n.id != e.id) then (e, lr.2)
        else
          let oldFile := e.pythonFile
          let newFile := nid ++ ".py"
          if oldFile ≠ newFile then
            if fileExists lr.2 oldFile && !fileExists lr.2 newFile then
              ({ e with pythonFile := newFile, id := nid, updatedAt := lr.2.clock },
                renameFile lr.2 oldFile newFile)
            else
              ({ e with id := nid, updatedAt := lr.2.clock }, lr.2)
          else
            ({ e with id := nid, updatedAt := lr.2.clock }, lr.2)

/-- The per-entry loop of `_check_and_update_registry` (step 2): an entry
whose file is missing from the snapshot is dropped and marks `updated`; an
entry whose snapshot mtime is newer than the stored one is passed to
`_update_node_entry` and then has its mtime refreshed, marking `updated`. -/
def checkEntriesGo (lower : Option (FState → Registry × FState)) (cur : List SrcFile) :
    FState → List RegistryEntry → List RegistryEntry × Bool × FState
  | st, [] => ([], false, st)
  | st, e :: rest =>
    match cur.find? (fun f => f.name == e.pythonFile) with
    | none =>
      let r := checkEntriesGo lower cur st rest
      (r.1, true, r.2.2)
    | some f =>
      if e.mtime < f.mtime then
        let u := updateNodeEntryGo lower st e f
        let e2 := { u.1 with mtime := f.mtime }
        let r := checkEntriesGo lower cur u.2 rest
        (e2 :: r.1, true, r.2.2)
      else
        let r := checkEntriesGo lower cur st rest
        (e :: r.1, r.2.1, r.2.2)

/-- `_check_and_update_registry`: snapshot the directory, walk the existing
entries (pruning entries whose file is gone, re-deriving modified files),
then append entries for unregistered files.  Returns the updated entry list,
the `updated` flag and the threaded filesystem. -/
def checkAndUpdateGo (lower : Option (FState → Registry × FState))
    (st : FState) (reg : Registry) : Registry × Bool × FState :=
  let cur := st.files.filter scanOk
  let r := checkEntriesGo lower cur st reg.custom_nodes
  let registered := reg.custom_nodes.map (·.pythonFile)
  let newFiles := cur.filter fun f => !registered.contains f.name
  let added := addNewFiles r.2.2 r.2.2.clock newFiles
  ({ reg with custom_nodes := r.1 ++ added },
    r.2.1 || !added.isEmpty,
    r.2.2)

/-- `load_registry` with the re-entrant call `lower` supplied: missing
registry file triggers the full scan; otherwise run the incremental check
and save when it reports changes. -/
def loadRegistryGo (lower : Option (FState → Registry × FState))
    (st : FState) : Registry × FState :=
  match st.regFile with
  | none => scanAndCreate st
  | some reg =>
    let r := checkAndUpdateGo lower st reg
    if r.2.1 then (r.1, saveRegistryState r.1 r.2.2) else (r.1, r.2.2)

/-- `load_registry` at a given recursion budget (Python's recursion limit):
`_update_node_entry` re-enters `load_registry` with one stack level less,
and at budget 0 that inner call raises `RecursionError` before doing
anything observable (modelled by `lower = none`). -/
def loadRegistry : Nat → FState → Registry × FState
  | 0, st => loadRegistryGo none st
  | fuel + 1, st => loadRegistryGo (some (loadRegistry fuel)) st

/-- `_check_and_update_registry` as an entry point at a given recursion
budget. -/
def checkAndUpdate (fuel : Nat) (st : FState) (reg : Registry) : Registry × Bool × FState :=
  checkAndUpdateGo (some (loadRegistry fuel)) st reg

/-- `create_custom_node(node_id, ..., python_code)`.  `codeCls` is what the
module-load fallback would observe after writing `python_code` to disk (the
first `Node` subclass and its `__node_id__`; `create` does not use the
class-name inference).  The function returns the final filesystem state
together with the outcome, mirroring that a raised `ValueError` leaves every
mutation made so far in place. -/
def createCustomNode (fuel : Nat) (st : FState) (nodeId : String)
    (code : String) (codeCls : Option LoadedClass) : FState × Except String RegistryEntry :=
  let lr := loadRegistry fuel st
  let reg := lr.1
  let st1 := lr.2
  if reg.custom_nodes.any (fun n => n.id == nodeId) then
    (st1, .error ("节点ID已存在: " ++ nodeId))
  else
    let fileName := nodeId ++ ".py"
    let st2 := writeFile st1 fileName code codeCls
    let fromAttr :=
      match codeCls with
      | some c =>
        match c.nodeIdAttr with
        | some i => if i.isEmpty then none else some i
        | none => none
      | none => none
    let actual := ((extractRegisterNode code).orElse (fun _ => fromAttr)).getD nodeId
    let s3 :=
      if actual ≠ nodeId then
        (writeFile (deleteFile st2 fileName) (actual ++ ".py") code codeCls, actual ++ ".py")
      else (st2, fileName)
    if reg.custom_nodes.any (fun n => n.id == actual) then
      (s3.1, .error ("节点ID已存在: " ++ actual ++ " (来自 @register_node)"))
    else
      let mt := ((findFile s3.1 s3.2).map (·.mtime)).getD 0
      let entry : RegistryEntry := ⟨actual, s3.2, mt, s3.1.clock, s3.1.clock⟩
      let reg2 := { reg with custom_nodes := reg.custom_nodes ++ [entry] }
      (saveRegistryState reg2 s3.1, .ok entry)

/-- In-place mutation of the first entry with the given id inside the loaded
registry list (the Python code mutates the found `node_entry` dict). -/
def replaceEntryFirst (l : List RegistryEntry) (nodeId : String) (e2 : RegistryEntry) : List RegistryEntry :=
  match l with
  | [] => []
  | n :: tl => if n.id == nodeId then e2 :: tl else n :: replaceEntryFirst tl nodeId e2

/-- `update_custom_node_parameters(node_id, inputs, outputs)`: load and
reconcile, find the entry, require the backing file, apply the text
transformation, write the result back, refresh the entry's timestamps and
save the registry.  (After a rewrite the loader outcome for the file is kept
abstract; none of the properties below reload it.)  Note the only failure
paths are the missing entry and the missing file — a malformed or absent
parameter block is not one. -/
def updateCustomNodeParameters (fuel : Nat) (st : FState) (nodeId : String)
    (inputs outputs : List (String × Bool × String)) : FState × Except String RegistryEntry :=
  let lr := loadRegistry fuel st
  let reg := lr.1
  let st1 := lr.2
  match reg.custom_nodes.find? (fun n => n.id == nodeId) with
  | none => (st1, .error ("节点不存在: " ++ nodeId))
  | some e =>
    match findFile st1 e.pythonFile with
    | none => (st1, .error ("Python文件不存在: " ++ e.pythonFile))
    | some f =>
      let newCode := List.asString
        (updateParamsTransform (genParamsCode inputs).data (genParamsCode outputs).data f.text.data)
      let st2 := writeFile st1 e.pythonFile newCode f.cls
      let mt := ((findFile st2 e.pythonFile).map (·.mtime)).getD 0
      let e2 := { e with updatedAt := st2.clock, mtime := mt }
      let reg2 := { reg with custom_nodes := replaceEntryFirst reg.custom_nodes nodeId e2 }
      (saveRegistryState reg2 st2, .ok e2)

/-- The primitive filesystem operations a write path performs, for the
write-discipline claim about `save_registry`. -/
inductive FsOp
  | openTrunc (path : String)
  | writeAll (path : String) (data : String)
  | replacePath (src dst : String)
  deriving DecidableEq

/-- The name of the registry file (`registry.json` under the managed
directory, from `Config.get_registry_file`). -/
def registryFileName : String := "registry.json"

/-- The operations `save_registry` performs: `open(registry_file, 'w')`
followed by `json.dump` into that handle — a direct truncating write of the
serialized document `doc` to the registry path, with no temporary file and
no replace step. -/
def saveRegistryOps (doc : String) : List FsOp :=
  [.openTrunc registryFileName, .writeAll registryFileName doc]

/-- The write-to-temporary-then-replace discipline the specification
requires of `save()`: all writing happens at some other path, and the
registry path is only ever touched by the final atomic replace. -/
def TempThenReplace (ops : List FsOp) : Prop :=
  ∃ tmp doc, tmp ≠ registryFileName ∧
    ops = [.openTrunc tmp, .writeAll tmp doc, .replacePath tmp registryFileName]

/-- The registry-path contents a crash can leave while a `writeAll` to the
registry path is in flight: the already-present content followed by any
prefix of the data (a truncating write streams the document). -/
def writePrefixes (regC : String) (d : String) : List String :=
  (List.range (d.length + 1)).map fun k => regC ++ ⟨d.data.take k⟩

/-- All registry-path contents observable if execution of the operation list
stops at an arbitrary point (after an operation, or mid-write for direct
writes to the registry path).  `openTrunc` of the registry path empties it;
`replacePath` onto it installs the source path's content atomically (never
partially); writes to other paths do not affect it.  `tmps` tracks the
contents of the other paths. -/
def crashStatesAux : List FsOp → String → List (String × String) → List String
  | [], _, _ => []
  | .openTrunc p :: tl, regC, tmps =>
    if p = registryFileName then "" :: crashStatesAux tl "" tmps
    else regC :: crashStatesAux tl regC ((p, "") :: tmps)
  | .writeAll p d :: tl, regC, tmps =>
    if p = registryFileName then writePrefixes regC d ++ crashStatesAux tl (regC ++ d) tmps
    else regC :: crashStatesAux tl regC ((p, d) :: tmps)
  | .replacePath src dst :: tl, regC, tmps =>
    if dst = registryFileName then
      let regC2 := (((tmps.find? (fun q => q.1 == src)).map (·.2)).getD regC)
      regC2 :: crashStatesAux tl regC2 tmps
    else regC :: crashStatesAux tl regC tmps

/-- The observable registry-file contents of an interrupted run of `ops`
starting from old registry content `old`. -/
def crashStates (old : String) (ops : List FsOp) : List String :=
  old :: crashStatesAux ops old []

/-- A configuration-parameter declaration as `extract_node_metadata` can
encounter it: a flat type-name string, a detailed dict, a `FieldSchema`
object (with type, required flag, description and optional default), or
anything else. -/
inductive CfgVal
  | s (v : String)
  | b (v : Bool)
  deriving DecidableEq

/-- The declaration forms of a configuration parameter. -/
inductive CfgDef
  | ofStr (s : String)
  | ofDict (d : List (String × CfgVal))
  | ofField (type : String) (required : Bool) (description : String) (default : Option CfgVal)
  | other
  deriving DecidableEq

/-- The normalized output value stored in `configParams`. -/
inductive CfgOut
  | ostr (v : String)
  | odict (d : List (String × CfgVal))
  deriving DecidableEq

/-- The per-parameter CONFIG_PARAMS branch of `extract_node_metadata`:
strings and dicts pass through verbatim, `FieldSchema` objects are converted
to a dict with a `type` key (plus the optional keys when set), and anything
else becomes the string "any". -/
def configParamOut : CfgDef → CfgOut
  | .ofStr s => .ostr s
  | .ofDict d => .odict d
  | .ofField t req desc dflt =>
    .odict ([("type", .s t)] ++
      (if req then [("required", .b true)] else []) ++
      (if desc.isEmpty then [] else [("description", .s desc)]) ++
      (match dflt with
       | some v => [("default", v)]
       | none => []))
  | .other => .ostr "any"

/-- The whole CONFIG_PARAMS loop: every declared parameter is kept under its
name with the normalized value. -/
def extractConfigParams (l : List (String × CfgDef)) : List (String × CfgOut) :=
  l.map fun p => (p.1, configParamOut p.2)

/-- What the specification says the string style should become:
`{type: <name>}`, the same record shape as the detailed style.  (Definition
follows the spec's words, for comparison with `configParamOut`.) -/
def specStringStyleOut (name : String) : CfgOut :=
  .odict [("type", .s name)]

/-! Concrete scenarios used by individual claims. -/

/-- Scenario for the reconciliation duplicate-id claim: `dup.py` is
registered as `dup`; `other.py` is a new file whose marker also declares
`dup`; no file is modified. -/
def c1State : FState :=
  ⟨[⟨"dup.py", 5, "@register_node(\x27dup\x27)", none⟩,
    ⟨"other.py", 5, "@register_node(\x27dup\x27)", none⟩],
    some ⟨[⟨"dup", "dup.py", 5, 0, 0⟩], "1.0"⟩, 10⟩

/-- Scenario for the idempotence claim: `old.py` was modified externally
(mtime 10 against the stored 5) and now declares the identifier `new`. -/
def c2State : FState :=
  ⟨[⟨"old.py", 10, "@register_node(\x27new\x27)", none⟩],
    some ⟨[⟨"old", "old.py", 5, 0, 0⟩], "1.0"⟩, 20⟩

/-- The `changed` flag of a second load-and-reconcile pass over the state a
first pass (at the given recursion budget) left behind. -/
def c2SecondChanged (fuel : Nat) : Bool :=
  match (loadRegistry fuel c2State).2.regFile with
  | none => false
  | some reg => (checkAndUpdate fuel (loadRegistry fuel c2State).2 reg).2.1

/-- Scenario for the rename-conflict claim: `old.py` was modified and now
declares `new`, while a file `new.py` already exists (and contributes no
identifier of its own). -/
def c7State : FState :=
  ⟨[⟨"old.py", 10, "@register_node(\x27new\x27)", none⟩,
    ⟨"new.py", 3, "x", none⟩],
    some ⟨[⟨"old", "old.py", 5, 0, 0⟩], "1.0"⟩, 20⟩

/-- A source file whose INPUT_PARAMS opening brace is never closed. -/
def c5Malformed : String := "class B:\n    INPUT_PARAMS = \x7b\n        \x27a\x27: 1\n"

/-- What the parameters-only update actually writes back for that file. -/
def c5Corrupted : String :=
  "class B:    # 输入参数定义\n    INPUT_PARAMS = \x7b\n\n    \x7d        \x27a\x27: 1\n"

/-- Scenario for the malformed-block claim: a registered node whose backing
file is `c5Malformed`. -/
def c5State : FState :=
  ⟨[⟨"a.py", 5, c5Malformed, none⟩], some ⟨[⟨"a", "a.py", 5, 0, 0⟩], "1.0"⟩, 10⟩

/-- Whether the operation reported success. -/
def exceptOk : Except String RegistryEntry → Bool
  | .ok _ => true
  | .error _ => false

/-! Claim theorems. -/

/-- C1 counterexample: on `c1State` the incremental pass
(`_check_and_update_registry`, reached through `load_registry`) appends an
entry for `other.py` although its derived identifier `dup` already has an
entry — the resulting registry holds two entries with id `dup`, so the pass
neither skipped the file nor kept at most one entry per identifier. -/
theorem c1_counterexample :
    ((loadRegistry 5 c1State).1.custom_nodes.map fun e => (e.id, e.pythonFile))
      = [("dup", "dup.py"), ("dup", "other.py")] := rfl

/-- C2: the claim (second reconciliation pass reports no change) fails
because `_update_node_entry` re-enters `load_registry` on an identifier
change.  On `c2State` the first pass — at recursion budgets of either
parity — leaves the directory holding `new.py` while the saved registry
still references `old.py`, so a second pass prunes that entry and re-adds
the file: `changed = true`. -/
theorem c2_bug_demo :
    c2SecondChanged 6 = true ∧ c2SecondChanged 7 = true ∧
    ((loadRegistry 6 c2State).2.files.map (·.name)) = ["new.py"] ∧
    ((loadRegistry 6 c2State).2.regFile.map fun r => r.custom_nodes.map (·.pythonFile))
      = some ["old.py"] :=
  ⟨rfl, rfl, rfl, rfl⟩

/-- C7 counterexample: on `c7State` the target file `new.py` exists, so the
rename is refused (the directory is untouched) — but the reconciled entry
comes out as id `new` still backed by `old.py`: the id field is updated, so
the entry does not keep its old identifier as the claim states. -/
theorem c7_counterexample :
    ((loadRegistry 7 c7State).1.custom_nodes.map fun e => (e.id, e.pythonFile))
        = [("new", "old.py")] ∧
    ((loadRegistry 7 c7State).2.files.map fun f => (f.name, f.mtime))
        = [("old.py", 10), ("new.py", 3)] :=
  ⟨rfl, rfl⟩

/-- C5 counterexample: on the unterminated-block file the parameters-only
update reports success and writes back `c5Corrupted`, which differs from the
original content — the operation silently corrupts the file instead of
failing and leaving it unchanged. -/
theorem c5_counterexample :
    exceptOk (updateCustomNodeParameters 3 c5State "a" [] []).2 = true ∧
    ((findFile (updateCustomNodeParameters 3 c5State "a" [] []).1 "a.py").map (·.text))
        = some c5Corrupted ∧
    c5Corrupted ≠ c5Malformed :=
  ⟨rfl, rfl, by decide⟩

/-- C9 counterexample: a flat type-name string in CONFIG_PARAMS is passed
through verbatim by `extract_node_metadata`, not normalized to the
`{type: <name>}` record shape the claim describes. -/
theorem c9_counterexample :
    configParamOut (.ofStr "string") = .ostr "string" ∧
    configParamOut (.ofStr "string") ≠ specStringStyleOut "string" :=
  ⟨rfl, by decide⟩

/-- C9 (amended): flat strings and detailed dicts pass through unchanged
(each parameter keeps its name), and only `FieldSchema` objects are
converted to the `{type: ...}` record form. -/
theorem c9_theorem :
    (∀ s, configParamOut (.ofStr s) = .ostr s) ∧
    (∀ d, configParamOut (.ofDict d) = .odict d) ∧
    (∀ (l : List (String × CfgDef)) (n s : String), (n, CfgDef.ofStr s) ∈ l →
      (n, CfgOut.ostr s) ∈ extractConfigParams l) ∧
    (∀ t, configParamOut (.ofField t false "" none) = .odict [("type", .s t)]) := by
  refine ⟨fun s => rfl, fun d => rfl, fun l n s h => ?_, fun t => rfl⟩
  simpa [extractConfigParams, configParamOut] using
    List.mem_map_of_mem (fun p => (p.1, configParamOut p.2)) h

/-- C9 witness: the amended claim applied to a concrete parameter list. -/
theorem c9_theorem_witness :
    configParamOut (.ofStr "number") = .ostr "number" ∧
    ("p", CfgOut.ostr "number") ∈ extractConfigParams [("p", CfgDef.ofStr "number")] :=
  ⟨c9_theorem.1 "number", c9_theorem.2.2.1 _ "p" "number" (by decide)⟩

/-- C4 counterexample: `save_registry`'s operation list is a direct
truncate-and-write of the registry path, not the temp-then-replace shape,
and interrupting it can leave content (here `"a"`) that is neither the old
document nor the new one. -/
theorem c4_counterexample :
    ¬ TempThenReplace (saveRegistryOps "ab") ∧
    ("a" : String) ∈ crashStates "OLD" (saveRegistryOps "ab") ∧
    ("a" : String) ≠ "OLD" ∧ ("a" : String) ≠ "ab" := by
  refine ⟨?_, by decide, by decide, by decide⟩
  rintro ⟨tmp, doc, hne, h⟩
  simp [saveRegistryOps] at h

/-- C4 (amended): saving writes the serialized document directly into the
registry file (truncate, then stream the document), so an interrupted save
can leave the file holding any prefix of the new document. -/
theorem c4_theorem (old doc : String) (k : Nat) (hk : k ≤ doc.length) :
    saveRegistryOps doc
        = [FsOp.openTrunc registryFileName, FsOp.writeAll registryFileName doc] ∧
    (⟨doc.data.take k⟩ : String) ∈ crashStates old (saveRegistryOps doc) := by
  refine ⟨rfl, ?_⟩
  have hs : ∀ s : String, "" ++ s = s := by
    intro s
    cases s
    rfl
  simp only [crashStates, saveRegistryOps, crashStatesAux, writePrefixes,
    if_pos rfl, hs]
  refine List.mem_cons_of_mem _ (List.mem_cons_of_mem _ (List.mem_append_left _ ?_))
  refine List.mem_map.mpr ⟨k, List.mem_range.mpr (by omega), ?_⟩
  exact hs _

/-- C4 witness: the amended claim at a concrete one-character interruption
point of a concrete save. -/
theorem c4_theorem_witness :
    1 ≤ ("ab" : String).length ∧
    (saveRegistryOps "ab"
        = [FsOp.openTrunc registryFileName, FsOp.writeAll registryFileName "ab"] ∧
      (⟨("ab" : String).data.take 1⟩ : String) ∈ crashStates "OLD" (saveRegistryOps "ab")) :=
  ⟨by decide, c4_theorem "OLD" "ab" 1 (by decide)⟩

/-- Key behavior of Python's `str.replace('node', '_node')`: whenever the
input ends with "node", the output ends with "_node" — because the final
occurrence is itself rewritten (along with every earlier one). -/
theorem replaceNode_append : ∀ (n : Nat) (s a : List Char), s.length ≤ n →
    s = a ++ nodeChars → ∃ b, replaceNode s = b ++ unodeChars := by
  intro n
  induction n with
  | zero =>
    intro s a hl hs
    subst hs
    simp [nodeChars] at hl
  | succ n ih =>
    intro s a hl hs
    rw [replaceNode.eq_def]
    split
    · rename_i tl
      rcases tl with _ | ⟨t, ts⟩
      · exact ⟨[], by simp [replaceNode, unodeChars, nodeChars]⟩
      · by_cases h4 : 4 ≤ a.length
        · have hdrop : (t :: ts).drop (a.length - 4) = nodeChars := by
            have h1 : ('n' :: 'o' :: 'd' :: 'e' :: t :: ts).drop a.length = nodeChars := by
              rw [hs]
              exact List.drop_left a nodeChars
            have h2 : ('n' :: 'o' :: 'd' :: 'e' :: t :: ts) = nodeChars ++ t :: ts := by
              simp [nodeChars]
            rw [h2, List.drop_append_eq_append_drop] at h1
            have h3 : nodeChars.drop a.length = [] := by
              apply List.drop_eq_nil_of_le
              simp [nodeChars]
              omega
            rw [h3, List.nil_append] at h1
            exact h1
          have hsplit : (t :: ts) = (t :: ts).take (a.length - 4) ++ nodeChars := by
            conv_lhs => rw [← List.take_append_drop (a.length - 4) (t :: ts)]
            rw [hdrop]
          obtain ⟨b2, hb2⟩ := ih (t :: ts) _ (by simp at hl ⊢; omega) hsplit
          refine ⟨unodeChars ++ b2, ?_⟩
          simp [hb2, unodeChars, nodeChars]
        · rcases a with _ | ⟨x1, (_ | ⟨x2, (_ | ⟨x3, (_ | ⟨x4, arest⟩)⟩)⟩)⟩
          · simp [nodeChars] at hs
          · simp [nodeChars] at hs
          · simp [nodeChars] at hs
          · simp [nodeChars] at hs
          · simp at h4
    · rename_i x1 c tl hne
      rcases a with _ | ⟨x, a2⟩
      · simp [nodeChars] at hs
        exact (hne [] hs.1 hs.2).elim
      · simp only [List.cons_append, List.cons.injEq] at hs
        obtain ⟨b2, hb2⟩ := ih tl a2 (by simp at hl; omega) hs.2
        exact ⟨c :: b2, by simp [hb2]⟩
    · simp [nodeChars] at hs

/-- Step (3) of the identifier-resolution order as the claim (and the spec)
words it: keep a name that already ends in "_node"; insert one underscore
before a bare trailing "node"; otherwise append "_node" — never touching the
rest of the name.  (Definition follows the spec's words, for comparison with
`inferNodeId`.) -/
def specInferId (className : List Char) : List Char :=
  let s := camelToSnake className
  if unodeChars.isSuffixOf s then s
  else if nodeChars.isSuffixOf s then s.take (s.length - 4) ++ unodeChars
  else s ++ unodeChars

/-- The inferred identifier always ends with "_node". -/
theorem inferNodeId_suffix (name : List Char) :
    unodeChars.isSuffixOf (inferNodeId name) = true := by
  unfold inferNodeId
  by_cases h1 : unodeChars.isSuffixOf (camelToSnake name) = true
  · simp [h1]
  · simp only [Bool.not_eq_true] at h1
    by_cases h2 : nodeChars.isSuffixOf (camelToSnake name) = true
    · simp only [h1, h2, if_true, if_false, Bool.false_eq_true]
      obtain ⟨a, ha⟩ := (List.isSuffixOf_iff_suffix.mp h2)
      obtain ⟨b, hb⟩ := replaceNode_append (camelToSnake name).length (camelToSnake name) a
        le_rfl ha.symm
      rw [hb]
      exact List.isSuffixOf_iff_suffix.mpr ⟨b, rfl⟩
    · simp only [Bool.not_eq_true] at h2
      simp only [h1, h2, Bool.false_eq_true, if_false]
      exact List.isSuffixOf_iff_suffix.mpr ⟨camelToSnake name, rfl⟩

/-- C3 counterexample: for class name `AnodeBnode` (no marker, no attribute)
the code derives `a_node_b_node` — `replace('node', '_node')` also rewrote
the first occurrence — while the claim's normalization (a single `_node`
suffix, the rest of the name unaltered) gives `anode_b_node`. -/
theorem c3_counterexample :
    extractNodeIdFromFile ⟨"anode_bnode.py", 0, "class AnodeBnode: pass",
        some ⟨"AnodeBnode", none⟩⟩ = some "a_node_b_node" ∧
    List.asString (specInferId "AnodeBnode".data) = "anode_b_node" ∧
    ("a_node_b_node" : String) ≠ "anode_b_node" :=
  ⟨rfl, rfl, by decide⟩

/-- C3 (amended): the resolution order is (1) raw-text registration marker,
(2) nonempty `__node_id__` attribute, (3) class-name inference; the inferred
identifier always ends with "_node" and is left unchanged when the
snake-case form already ends with "_node" — but when the form ends with a
bare "node", every occurrence of "node" in it is rewritten, which can alter
the rest of the name. -/
theorem c3_theorem :
    (∀ (f : SrcFile) (x : String), extractRegisterNode f.text = some x →
      extractNodeIdFromFile f = some x) ∧
    (∀ (f : SrcFile) (c : LoadedClass) (i : String), extractRegisterNode f.text = none →
      f.cls = some c → c.nodeIdAttr = some i → i.isEmpty = false →
      extractNodeIdFromFile f = some i) ∧
    (∀ (f : SrcFile) (c : LoadedClass), extractRegisterNode f.text = none →
      f.cls = some c → c.nodeIdAttr = none →
      extractNodeIdFromFile f = some (List.asString (inferNodeId c.className.data))) ∧
    (∀ name : List Char, unodeChars.isSuffixOf (inferNodeId name) = true) ∧
    (∀ name : List Char, unodeChars.isSuffixOf (camelToSnake name) = true →
      inferNodeId name = camelToSnake name) := by
  refine ⟨fun f x h => by simp [extractNodeIdFromFile, h],
    fun f c i h1 h2 h3 h4 => by simp [extractNodeIdFromFile, h1, h2, h3, h4],
    fun f c h1 h2 h3 => by simp [extractNodeIdFromFile, h1, h2, h3],
    inferNodeId_suffix,
    fun name h => by simp [inferNodeId, h]⟩

/-- C3 witness: the precedence order and the suffix property at concrete
inputs — the marker wins over a conflicting attribute, the attribute wins
over inference, inference applies last, and every inferred id ends with
"_node". -/
theorem c3_theorem_witness :
    extractNodeIdFromFile ⟨"m1.py", 0, "@register_node(\x27m1\x27)",
        some ⟨"Zed", some "zzz"⟩⟩ = some "m1" ∧
    extractNodeIdFromFile ⟨"b.py", 0, "class Beta: pass",
        some ⟨"Beta", some "beta_node"⟩⟩ = some "beta_node" ∧
    extractNodeIdFromFile ⟨"g.py", 0, "class Gamma: pass", some ⟨"Gamma", none⟩⟩
        = some (List.asString (inferNodeId "Gamma".data)) ∧
    unodeChars.isSuffixOf (inferNodeId "HTTPRequest".data) = true :=
  ⟨c3_theorem.1 _ "m1" (by decide),
   c3_theorem.2.1 _ _ "beta_node" (by decide) rfl rfl (by decide),
   c3_theorem.2.2.1 _ _ (by decide) rfl rfl,
   c3_theorem.2.2.2.1 _⟩

/-- The scan loop of the full rescan keeps ids unique: the accumulator's ids
stay inside the `existing_ids` set, and a file whose derived id is already
in the set is skipped. -/
theorem autoScanAux_nodup (now : Nat) :
    ∀ (fs : List SrcFile) (acc : List RegistryEntry) (ids : List String),
      (∀ e ∈ acc, e.id ∈ ids) → (acc.map (·.id)).Nodup →
      ((autoScanAux now fs acc ids).map (·.id)).Nodup := by
  intro fs
  induction fs with
  | nil => intro acc ids hsub hnd; simpa [autoScanAux] using hnd
  | cons f fs ih =>
    intro acc ids hsub hnd
    simp only [autoScanAux]
    split
    · split
      · exact ih acc ids hsub hnd
      · rename_i nid hx
        split
        · exact ih acc ids hsub hnd
        · rename_i hnotin
          apply ih
          · intro e he
            rcases List.mem_append.mp he with hm | hm
            · exact List.mem_cons_of_mem _ (hsub e hm)
            · simp only [List.mem_singleton] at hm
              subst hm
              exact List.mem_cons_self _ _
          · rw [List.map_append]
            refine List.Nodup.append hnd (by simp) ?_
            intro x hx1 hx2
            simp only [List.map_cons, List.map_nil, List.mem_singleton, mkEntry] at hx2
            subst hx2
            rcases List.mem_map.mp hx1 with ⟨e, he, hid⟩
            exact hnotin (hid ▸ hsub e he)
    · exact ih acc ids hsub hnd

/-- C1 (amended): only the full rescan (`_auto_scan_nodes`, used when no
registry file exists) keeps at most one entry per canonical id, by silently
skipping — with no conflict log — any file whose derived id is already
present; the incremental pass adds entries for new files without any
duplicate check (see the counterexample). -/
theorem c1_theorem (st : FState) (reg : Registry)
    (h : (reg.custom_nodes.map (·.id)).Nodup) :
    ((autoScan st reg).custom_nodes.map (·.id)).Nodup := by
  exact autoScanAux_nodup st.clock st.files reg.custom_nodes (reg.custom_nodes.map (·.id))
    (fun e he => List.mem_map_of_mem _ he) h

/-- C1 witness: the full rescan over a directory both of whose files derive
the id `b` keeps ids unique. -/
theorem c1_theorem_witness :
    (((⟨[⟨"a", "a.py", 1, 0, 0⟩], "1.0"⟩ : Registry).custom_nodes.map (·.id)).Nodup) ∧
    ((autoScan ⟨[⟨"b.py", 2, "@register_node(\x27b\x27)", none⟩,
        ⟨"b2.py", 2, "@register_node(\x27b\x27)", none⟩], none, 9⟩
        ⟨[⟨"a", "a.py", 1, 0, 0⟩], "1.0"⟩).custom_nodes.map (·.id)).Nodup :=
  ⟨by decide, c1_theorem _ _ (by decide)⟩

/-- State for the C7 witness: both `old.py` and the rename target `new.py`
exist, every entry is current, so load-and-reconcile is a no-op. -/
def c7wState : FState :=
  ⟨[⟨"old.py", 10, "@register_node(\x27new\x27)", none⟩, ⟨"new.py", 3, "x", none⟩],
    some ⟨[⟨"foo", "old.py", 10, 0, 0⟩, ⟨"bar", "new.py", 3, 0, 0⟩], "1.0"⟩, 5⟩

/-- C7 (amended): when the re-derived id has no conflicting registry entry
but a file named after it already exists, `_update_node_entry` refuses only
the rename — the filesystem and the `pythonFile` field are untouched, but
the entry's `id` is still set to the new identifier (and `updatedAt`
refreshed); the old identifier is kept only on a registry-id conflict. -/
theorem c7_theorem (load : FState → Registry × FState) (st : FState)
    (e : RegistryEntry) (f : SrcFile) (nid : String)
    (hx : extractNodeIdFromFile f = some nid) (hne : nid ≠ e.id)
    (hnc : ((load st).1.custom_nodes.any fun n => n.id == nid && n.id != e.id) = false)
    (hdiff : e.pythonFile ≠ nid ++ ".py")
    (hold : fileExists (load st).2 e.pythonFile = true)
    (hnew : fileExists (load st).2 (nid ++ ".py") = true) :
    updateNodeEntryGo (some load) st e f
      = ({ e with id := nid, updatedAt := (load st).2.clock }, (load st).2) := by
  simp only [updateNodeEntryGo, hx]
  simp [hne, hnc, hdiff, hold, hnew]

/-- C7 witness: the amended claim at `c7wState` — the rename target exists,
the rename is refused, and the returned entry carries the new id with the
old backing file. -/
theorem c7_theorem_witness :
    updateNodeEntryGo (some (loadRegistry 2)) c7wState ⟨"old", "old.py", 5, 0, 0⟩
        ⟨"old.py", 10, "@register_node(\x27new\x27)", none⟩
      = ({ (⟨"old", "old.py", 5, 0, 0⟩ : RegistryEntry) with
            id := "new"
            updatedAt := (loadRegistry 2 c7wState).2.clock },
          (loadRegistry 2 c7wState).2) :=
  c7_theorem (loadRegistry 2) c7wState ⟨"old", "old.py", 5, 0, 0⟩
    ⟨"old.py", 10, "@register_node(\x27new\x27)", none⟩ "new"
    (by decide) (by decide) (by decide) (by decide) (by decide) (by decide)

/-- Round-trip between a string and its character list. -/
theorem stringMkData (s : String) : List.asString s.data = s := rfl

/-- Mapping an update over a list commutes with `find?` on the same key. -/
theorem find?_map_update (l : List SrcFile) (name text : String) (cls : Option LoadedClass)
    (mt : Nat) :
    (l.map fun f2 => if f2.name == name then { f2 with text := text, cls := cls, mtime := mt } else f2).find?
        (fun f2 => f2.name == name)
      = (l.find? fun f2 => f2.name == name).map
          fun f2 => { f2 with text := text, cls := cls, mtime := mt } := by
  induction l with
  | nil => rfl
  | cons x l ih =>
    by_cases hx : (x.name == name) = true
    · simp [List.find?, hx]
    · rw [List.map_cons, if_neg (by simp [hx]), List.find?_cons_of_neg _ (by simp [hx]),
        List.find?_cons_of_neg _ (by simp [hx]), ih]

/-- Writing a file that already exists updates it in place, so looking it up
afterwards returns the updated record. -/
theorem findFile_writeFile_self (st : FState) (name text : String) (cls : Option LoadedClass)
    (g : SrcFile) (h : findFile st name = some g) :
    findFile (writeFile st name text cls) name
      = some { g with text := text, cls := cls, mtime := st.clock + 1 } := by
  unfold writeFile fileExists
  rw [h]
  simp only [Option.isSome_some, if_true]
  unfold findFile at h ⊢
  rw [find?_map_update, h]
  rfl

/-- C5 (amended): when BOTH parameter-block headers are missing from the
node's source, the parameters-only update does NOT fail: it reports success
and rewrites the file with byte-for-byte identical content (the transform is
the identity when neither header matches).  Together with
`c5_counterexample` — where a malformed (unterminated) block makes the
operation report success while writing a corrupted file — this replaces the
claimed behavior "missing or malformed blocks report a clear failure and
leave the file unchanged". -/
theorem c5_theorem (fuel : Nat) (st : FState) (nodeId : String)
    (ins outs : List (String × Bool × String)) (e : RegistryEntry) (f : SrcFile)
    (he : (loadRegistry fuel st).1.custom_nodes.find? (fun n => n.id == nodeId) = some e)
    (hf : findFile (loadRegistry fuel st).2 e.pythonFile = some f)
    (hin : searchHeader inLabel inKw f.text.data = none)
    (hout : searchHeader outLabel outKw f.text.data = none) :
    exceptOk (updateCustomNodeParameters fuel st nodeId ins outs).2 = true ∧
    ((findFile (updateCustomNodeParameters fuel st nodeId ins outs).1 e.pythonFile).map (·.text))
      = some f.text := by
  have htr : updateParamsTransform (genParamsCode ins).data (genParamsCode outs).data f.text.data
      = f.text.data := by
    simp [updateParamsTransform, replaceParamBlock, hin, hout]
  simp only [updateCustomNodeParameters, he, hf, htr, stringMkData]
  refine ⟨rfl, ?_⟩
  rw [show ∀ (r : Registry) (s : FState) (nm : String),
      findFile (saveRegistryState r s) nm = findFile s nm from fun _ _ _ => rfl]
  rw [findFile_writeFile_self _ _ _ _ _ hf]
  rfl

/-- Source file for the C5 witness: a node with no parameter blocks at all. -/
def c5wFile : SrcFile := ⟨"b.py", 5, "class C:\n    pass\n", none⟩

/-- State for the C5 witness: `b.py` is registered and on disk. -/
def c5wState : FState := ⟨[c5wFile], some ⟨[⟨"b", "b.py", 5, 0, 0⟩], "1.0"⟩, 10⟩

/-- C5 witness: the amended claim at a concrete node whose source has neither
an INPUT_PARAMS nor an OUTPUT_PARAMS block — the update succeeds and the
on-disk text is unchanged. -/
theorem c5_theorem_witness :
    ((loadRegistry 2 c5wState).1.custom_nodes.find? (fun n => n.id == "b")
        = some ⟨"b", "b.py", 5, 0, 0⟩) ∧
    (findFile (loadRegistry 2 c5wState).2 "b.py" = some c5wFile) ∧
    searchHeader inLabel inKw c5wFile.text.data = none ∧
    searchHeader outLabel outKw c5wFile.text.data = none ∧
    (exceptOk (updateCustomNodeParameters 2 c5wState "b" [] []).2 = true ∧
     ((findFile (updateCustomNodeParameters 2 c5wState "b" [] []).1 "b.py").map (·.text))
        = some c5wFile.text) :=
  ⟨rfl, rfl, rfl, rfl,
   c5_theorem 2 c5wState "b" [] [] ⟨"b", "b.py", 5, 0, 0⟩ c5wFile rfl rfl rfl rfl⟩

/-- Loading the registry over an empty directory yields an empty registry and
leaves the state unchanged (the full scan finds nothing to record). -/
theorem loadRegistry_empty (fuel c : Nat) :
    loadRegistry fuel ⟨[], none, c⟩ = (⟨[], "1.0"⟩, ⟨[], none, c⟩) := by
  cases fuel <;> rfl

/-- Loading the registry over a directory holding exactly the registered file
`dup.py` with an up-to-date mtime is a no-op at every fuel. -/
theorem loadRegistry_dupState (fuel : Nat) (T c ca ua : Nat) (code : String)
    (cls : Option LoadedClass) (v : String) :
    loadRegistry fuel ⟨[⟨"dup.py", T, code, cls⟩], some ⟨[⟨"dup", "dup.py", T, ca, ua⟩], v⟩, c⟩
      = (⟨[⟨"dup", "dup.py", T, ca, ua⟩], v⟩,
         ⟨[⟨"dup.py", T, code, cls⟩], some ⟨[⟨"dup", "dup.py", T, ca, ua⟩], v⟩, c⟩) := by
  cases fuel <;>
    simp [loadRegistry, loadRegistryGo, checkAndUpdateGo, checkEntriesGo, scanOk,
      startsWithUnderscore, addNewFiles, findFile, saveRegistryState, List.find?,
      List.filter, List.contains]

/-- Appending the fixed `.py` extension is injective on file stems. -/
theorem fileNameInj (a b : String) (h : a ++ ".py" = b ++ ".py") : a = b := by
  have hd : a.data ++ ".py".data = b.data ++ ".py".data := by
    have h2 := congrArg String.data h
    simpa [String.data_append] using h2
  have hab : a.data = b.data := List.append_cancel_right hd
  have h3 := congrArg List.asString hab
  rwa [stringMkData, stringMkData] at h3

/-- Creating a node in an empty directory succeeds and records it under the
canonical id declared in the code (`d`), regardless of the requested id. -/
theorem create_empty (fuel : Nat) (r code : String) (cls : Option LoadedClass)
    (c : Nat) (d : String) (hd : extractRegisterNode code = some d) :
    createCustomNode fuel ⟨[], none, c⟩ r code cls =
      (if d = r then
        (⟨[⟨d ++ ".py", c + 1, code, cls⟩],
          some ⟨[⟨d, d ++ ".py", c + 1, c + 1, c + 1⟩], "1.0"⟩, c + 1⟩,
         .ok ⟨d, d ++ ".py", c + 1, c + 1, c + 1⟩)
      else
        (⟨[⟨d ++ ".py", c + 2, code, cls⟩],
          some ⟨[⟨d, d ++ ".py", c + 2, c + 2, c + 2⟩], "1.0"⟩, c + 2⟩,
         .ok ⟨d, d ++ ".py", c + 2, c + 2, c + 2⟩)) := by
  by_cases hdr : d = r
  · subst hdr
    simp [createCustomNode, loadRegistry_empty, hd, writeFile, fileExists, findFile,
      deleteFile, saveRegistryState, Option.orElse]
  · simp [createCustomNode, loadRegistry_empty, hd, writeFile, fileExists, findFile,
      deleteFile, saveRegistryState, Option.orElse, hdr, Ne.symm hdr]

/-- A second create whose code declares the already-registered id `dup`
fails with an error, leaves the registry document unchanged, and (when the
requested id differs from `dup`) has already overwritten `dup.py` on disk
with the new submission's code. -/
theorem create_dup_second (fuel : Nat) (T c ca ua : Nat) (code0 code : String)
    (cls0 cls : Option LoadedClass) (v r : String)
    (h : extractRegisterNode code = some "dup") :
    (∃ msg, (createCustomNode fuel
        ⟨[⟨"dup.py", T, code0, cls0⟩], some ⟨[⟨"dup", "dup.py", T, ca, ua⟩], v⟩, c⟩
        r code cls).2 = .error msg) ∧
    ((createCustomNode fuel
        ⟨[⟨"dup.py", T, code0, cls0⟩], some ⟨[⟨"dup", "dup.py", T, ca, ua⟩], v⟩, c⟩
        r code cls).1.regFile = some ⟨[⟨"dup", "dup.py", T, ca, ua⟩], v⟩) ∧
    (r ≠ "dup" →
      ((findFile (createCustomNode fuel
          ⟨[⟨"dup.py", T, code0, cls0⟩], some ⟨[⟨"dup", "dup.py", T, ca, ua⟩], v⟩, c⟩
          r code cls).1 "dup.py").map (·.text)) = some code) := by
  by_cases hr : r = "dup"
  · subst hr
    simp [createCustomNode, loadRegistry_dupState, List.any]
  · have hpy : ("dup.py" == r ++ ".py") = false := by
      rw [beq_eq_false_iff_ne]
      intro hcc
      apply hr
      have : ("dup" : String) ++ ".py" = r ++ ".py" := by
        rw [show ("dup" : String) ++ ".py" = "dup.py" from rfl]
        exact hcc
      exact (fileNameInj "dup" r this).symm
    have hdr : ("dup" == r) = false := by
      rw [beq_eq_false_iff_ne]
      exact fun hcc => hr hcc.symm
    simp [createCustomNode, loadRegistry_dupState, h, Option.orElse, hdr,
      Ne.symm hr, writeFile, fileExists, findFile, deleteFile, saveRegistryState,
      List.find?, List.filter, hpy, hr, bne]

/-- C8: starting from an empty directory, two create calls whose submitted
code both declare the canonical id `dup` via the registration marker end
with the first call succeeding under id `dup`, the second call failing with
an error, and the registry holding exactly one entry whose id is `dup`. -/
theorem c8_theorem (r1 r2 code1 code2 : String) (cls1 cls2 : Option LoadedClass)
    (fuel1 fuel2 : Nat)
    (h1 : extractRegisterNode code1 = some "dup")
    (h2 : extractRegisterNode code2 = some "dup") :
    (∃ e1, (createCustomNode fuel1 ⟨[], none, 0⟩ r1 code1 cls1).2 = .ok e1 ∧ e1.id = "dup") ∧
    (∃ msg, (createCustomNode fuel2 (createCustomNode fuel1 ⟨[], none, 0⟩ r1 code1 cls1).1
        r2 code2 cls2).2 = .error msg) ∧
    (((createCustomNode fuel2 (createCustomNode fuel1 ⟨[], none, 0⟩ r1 code1 cls1).1
        r2 code2 cls2).1.regFile.map
        fun rg => (rg.custom_nodes.filter fun e => e.id == "dup").length) = some 1) := by
  rw [create_empty fuel1 r1 code1 cls1 0 "dup" h1]
  by_cases hr1 : "dup" = r1
  · simp only [if_pos hr1, show ("dup" : String) ++ ".py" = "dup.py" from rfl,
      show (0 : Nat) + 1 = 1 from rfl]
    refine ⟨⟨_, rfl, rfl⟩, (create_dup_second fuel2 1 1 1 1 code1 code2 cls1 cls2 "1.0" r2 h2).1, ?_⟩
    rw [(create_dup_second fuel2 1 1 1 1 code1 code2 cls1 cls2 "1.0" r2 h2).2.1]
    simp [List.filter]
  · simp only [if_neg hr1, show ("dup" : String) ++ ".py" = "dup.py" from rfl,
      show (0 : Nat) + 2 = 2 from rfl]
    refine ⟨⟨_, rfl, rfl⟩, (create_dup_second fuel2 2 2 2 2 code1 code2 cls1 cls2 "1.0" r2 h2).1, ?_⟩
    rw [(create_dup_second fuel2 2 2 2 2 code1 code2 cls1 cls2 "1.0" r2 h2).2.1]
    simp [List.filter]

/-- Submitted code that declares the canonical id `dup` via the raw-text
registration marker; used by the C8 and C10 witnesses. -/
def dupMarkerCode : String := "@register_node(\x27dup\x27)\nclass D:\n    pass\n"

/-- C8 witness: the claim at two concrete create calls that both declare
`dup`, with requested ids `dup` and `other`. -/
theorem c8_theorem_witness :
    extractRegisterNode dupMarkerCode = some "dup" ∧
    ((∃ e1, (createCustomNode 3 ⟨[], none, 0⟩ "dup" dupMarkerCode none).2 = .ok e1 ∧
        e1.id = "dup") ∧
     (∃ msg, (createCustomNode 3 (createCustomNode 3 ⟨[], none, 0⟩ "dup" dupMarkerCode none).1
        "other" dupMarkerCode none).2 = .error msg) ∧
     (((createCustomNode 3 (createCustomNode 3 ⟨[], none, 0⟩ "dup" dupMarkerCode none).1
        "other" dupMarkerCode none).1.regFile.map
        fun rg => (rg.custom_nodes.filter fun e => e.id == "dup").length) = some 1)) :=
  ⟨rfl, c8_theorem "dup" "other" dupMarkerCode dupMarkerCode none none 3 3 rfl rfl⟩

/-- C10: a create call whose code declares the already-registered canonical
id `dup` (differing from the requested id `r`) fails with an error only
after the submitted code has replaced the existing entry's own source file
`dup.py` on disk, while the registry document itself is unchanged. -/
theorem c10_theorem (fuel : Nat) (T c ca ua : Nat) (oldCode code r : String)
    (oldCls cls : Option LoadedClass) (hr : r ≠ "dup")
    (hd : extractRegisterNode code = some "dup") :
    (∃ msg, (createCustomNode fuel
        ⟨[⟨"dup.py", T, oldCode, oldCls⟩], some ⟨[⟨"dup", "dup.py", T, ca, ua⟩], "1.0"⟩, c⟩
        r code cls).2 = .error msg) ∧
    ((findFile (createCustomNode fuel
        ⟨[⟨"dup.py", T, oldCode, oldCls⟩], some ⟨[⟨"dup", "dup.py", T, ca, ua⟩], "1.0"⟩, c⟩
        r code cls).1 "dup.py").map (·.text)) = some code ∧
    (createCustomNode fuel
        ⟨[⟨"dup.py", T, oldCode, oldCls⟩], some ⟨[⟨"dup", "dup.py", T, ca, ua⟩], "1.0"⟩, c⟩
        r code cls).1.regFile = some ⟨[⟨"dup", "dup.py", T, ca, ua⟩], "1.0"⟩ :=
  ⟨(create_dup_second fuel T c ca ua oldCode code oldCls cls "1.0" r hd).1,
   (create_dup_second fuel T c ca ua oldCode code oldCls cls "1.0" r hd).2.2 hr,
   (create_dup_second fuel T c ca ua oldCode code oldCls cls "1.0" r hd).2.1⟩

/-- C10 witness: the claim at a concrete state where `dup.py` holds old code,
and a create for requested id `other` submits code declaring `dup`. -/
theorem c10_theorem_witness :
    ("other" : String) ≠ "dup" ∧ extractRegisterNode dupMarkerCode = some "dup" ∧
    ((∃ msg, (createCustomNode 3
        ⟨[⟨"dup.py", 5, "old code", none⟩], some ⟨[⟨"dup", "dup.py", 5, 1, 2⟩], "1.0"⟩, 9⟩
        "other" dupMarkerCode none).2 = .error msg) ∧
     ((findFile (createCustomNode 3
        ⟨[⟨"dup.py", 5, "old code", none⟩], some ⟨[⟨"dup", "dup.py", 5, 1, 2⟩], "1.0"⟩, 9⟩
        "other" dupMarkerCode none).1 "dup.py").map (·.text)) = some dupMarkerCode ∧
     (createCustomNode 3
        ⟨[⟨"dup.py", 5, "old code", none⟩], some ⟨[⟨"dup", "dup.py", 5, 1, 2⟩], "1.0"⟩, 9⟩
        "other" dupMarkerCode none).1.regFile = some ⟨[⟨"dup", "dup.py", 5, 1, 2⟩], "1.0"⟩) :=
  ⟨by decide, rfl,
   c10_theorem 3 5 9 1 2 "old code" dupMarkerCode "other" none none (by decide) rfl⟩

/-- A string-literal body is well formed for quote character `q` after
previous character `prev`: it contains no unescaped `q` (an occurrence of `q`
counts as escaped when the preceding character is a backslash, exactly as in
the scanner's `prev_char` test). -/
def strSeg (q : Char) : Char → List Char → Bool
  | prev, [] => prev != bslash
  | prev, c :: tl => if c = q && prev != bslash then false else strSeg q c tl

/-- Grammar of a well-balanced parameter-block body: a plain character (no
quote, no brace), a complete quoted string literal (which may contain braces),
or a nested brace pair around a well-balanced body. -/
inductive Seg
  | plain (c : Char)
  | str (q : Char) (content : List Char)
  | nest (inner : List Seg)

mutual

/-- The character sequence a segment denotes. -/
def Seg.flat : Seg → List Char
  | .plain c => [c]
  | .str q content => q :: content ++ [q]
  | .nest inner => '{' :: flatSegs inner ++ ['}']

/-- The character sequence a segment list denotes. -/
def flatSegs : List Seg → List Char
  | [] => []
  | g :: tl => g.flat ++ flatSegs tl

end

mutual

/-- Well-formedness of a segment: plain characters are neither quotes nor
braces, string segments use a real quote character and a body with no
unescaped closing quote, nested segments are recursively well formed. -/
def segOk : Seg → Bool
  | .plain c => !isQuoteCh c && c ≠ '{' && c ≠ '}'
  | .str q content => isQuoteCh q && strSeg q q content
  | .nest inner => segsOk inner

/-- Well-formedness of a segment list. -/
def segsOk : List Seg → Bool
  | [] => true
  | g :: tl => segOk g && segsOk tl

end

/-- Outside a string literal the scanner ignores both the previous character
and the remembered quote character. -/
theorem findClose_irrel : ∀ (s : List Char) (pos d : Nat) (p1 p2 c1 c2 : Char),
    findClose s p1 pos d false c1 = findClose s p2 pos d false c2 := by
  intro s
  induction s with
  | nil => intros; rfl
  | cons c tl ih =>
    intro pos d p1 p2 c1 c2
    simp only [findClose, Bool.not_false, Bool.true_and, Bool.false_and,
      Bool.false_eq_true, if_false]
    by_cases hq : isQuoteCh c = true
    · rw [if_pos hq, if_pos hq]
    · rw [if_neg hq, if_neg hq]
      by_cases hb1 : c = '{'
      · rw [if_pos hb1, if_pos hb1]
        exact ih _ _ _ _ _ _
      · rw [if_neg hb1, if_neg hb1]
        by_cases hb2 : c = '}'
        · rw [if_pos hb2, if_pos hb2]
          by_cases hd : d = 1
          · simp [hd]
          · rw [if_neg hd, if_neg hd]
            exact ih _ _ _ _ _ _
        · rw [if_neg hb2, if_neg hb2]
          exact ih _ _ _ _ _ _

/-- While inside a string literal the scanner consumes the whole remaining
body without touching the depth, leaving string mode at the unescaped
closing quote: braces inside the literal are not counted. -/
theorem scan_str_content (q : Char) :
    ∀ (content : List Char) (prev : Char) (s2 : List Char) (pos d : Nat),
      strSeg q prev content = true →
      findClose (content ++ q :: s2) prev pos d true q
        = findClose s2 q (pos + content.length + 1) d false q := by
  intro content
  induction content with
  | nil =>
    intro prev s2 pos d hstr
    simp only [strSeg, bne_iff_ne, ne_eq, decide_eq_true_eq] at hstr
    simp only [List.nil_append, findClose]
    rw [if_neg (by simp), if_pos (by simp [hstr])]
    simp
  | cons c tl ih =>
    intro prev s2 pos d hstr
    simp only [strSeg] at hstr
    by_cases hcp : c = q ∧ prev ≠ bslash
    · rw [if_pos (by simp [hcp.1, hcp.2])] at hstr
      cases hstr
    · rw [if_neg (by
        simp only [Bool.and_eq_true, decide_eq_true_eq, bne_iff_ne, ne_eq]
        exact fun h => hcp ⟨h.1, h.2⟩)] at hstr
      simp only [List.cons_append, findClose]
      rw [if_neg (by simp)]
      rw [if_neg (by
        simp only [Bool.true_and, Bool.and_eq_true, decide_eq_true_eq, ne_eq]
        exact fun h => hcp ⟨h.1, h.2⟩)]
      rw [if_neg (by simp)]
      simp only [List.append_eq]
      rw [ih c s2 (pos + 1) d hstr]
      have harith : pos + 1 + tl.length + 1 = pos + (c :: tl).length + 1 := by
        simp only [List.length_cons]
        omega
      rw [harith]

mutual

/-- Scanning a well-formed segment at depth at least 1 steps over it exactly,
ending right after its last character with the depth unchanged. -/
theorem scanSeg : ∀ (g : Seg), segOk g = true →
    ∀ (s2 : List Char) (pos d : Nat) (prev c : Char), 1 ≤ d →
      findClose (g.flat ++ s2) prev pos d false c
        = findClose s2 'x' (pos + g.flat.length) d false 'x'
  | .plain ch, h, s2, pos, d, prev, c, hd => by
    simp only [segOk, Bool.and_eq_true, Bool.not_eq_true', decide_eq_true_eq] at h
    simp only [Seg.flat, List.singleton_append, List.length_singleton, findClose]
    rw [if_neg (by simp [h.1.1]), if_neg (by simp), if_pos (by simp),
      if_neg (by simp [h.1.2]), if_neg (by simp [h.2])]
    exact findClose_irrel s2 (pos + 1) d ch 'x' c 'x'
  | .str q content, h, s2, pos, d, prev, c, hd => by
    simp only [segOk, Bool.and_eq_true] at h
    have hflat : (Seg.str q content).flat ++ s2 = q :: (content ++ q :: s2) := by
      simp [Seg.flat]
    rw [hflat]
    simp only [findClose]
    rw [if_pos (by simp [h.1])]
    rw [scan_str_content q content q s2 (pos + 1) d h.2]
    rw [findClose_irrel s2 _ d q 'x' q 'x']
    have harith : pos + 1 + content.length + 1 = pos + (Seg.str q content).flat.length := by
      simp [Seg.flat]
      omega
    rw [harith]
  | .nest inner, h, s2, pos, d, prev, c, hd => by
    simp only [segOk] at h
    have hflat : (Seg.nest inner).flat ++ s2 = '{' :: (flatSegs inner ++ ('}' :: s2)) := by
      simp [Seg.flat]
    rw [hflat]
    simp only [findClose]
    rw [if_neg (by simp [isQuoteCh, squote]), if_neg (by simp), if_pos (by simp),
      if_pos (by simp)]
    rw [scanSegs inner h ('}' :: s2) (pos + 1) (d + 1) '{' c (by omega)]
    simp only [findClose]
    rw [if_neg (by simp [isQuoteCh, squote]), if_neg (by simp), if_pos (by simp),
      if_neg (by simp), if_pos (by simp), if_neg (by omega)]
    rw [findClose_irrel s2 _ _ '}' 'x' 'x' 'x']
    have harith : pos + 1 + (flatSegs inner).length + 1 = pos + (Seg.nest inner).flat.length := by
      simp [Seg.flat]
      omega
    have hd1 : d + 1 - 1 = d := by omega
    rw [harith, hd1]
termination_by g => sizeOf g

/-- Scanning a list of well-formed segments steps over all of them. -/
theorem scanSegs : ∀ (l : List Seg), segsOk l = true →
    ∀ (s2 : List Char) (pos d : Nat) (prev c : Char), 1 ≤ d →
      findClose (flatSegs l ++ s2) prev pos d false c
        = findClose s2 'x' (pos + (flatSegs l).length) d false 'x'
  | [], h, s2, pos, d, prev, c, hd => by
    simp only [flatSegs, List.nil_append, List.length_nil, Nat.add_zero]
    exact findClose_irrel s2 pos d prev 'x' c 'x'
  | g :: tl, h, s2, pos, d, prev, c, hd => by
    simp only [segsOk, Bool.and_eq_true] at h
    rw [show flatSegs (g :: tl) = g.flat ++ flatSegs tl from rfl, List.append_assoc]
    rw [scanSeg g h.1 (flatSegs tl ++ s2) pos d prev c hd]
    rw [scanSegs tl h.2 s2 (pos + g.flat.length) d 'x' 'x' hd]
    have harith : pos + g.flat.length + (flatSegs tl).length
        = pos + (g.flat ++ flatSegs tl).length := by
      simp
      omega
    rw [harith]
termination_by l => sizeOf l

end

/-- On a well-balanced body followed by the true closing brace the scanner
returns exactly the closing brace's position. -/
theorem findClose_block (segs : List Seg) (h : segsOk segs = true)
    (rest : List Char) (pos : Nat) (prev c : Char) :
    findClose (flatSegs segs ++ '}' :: rest) prev pos 1 false c
      = some (pos + (flatSegs segs).length) := by
  rw [scanSegs segs h ('}' :: rest) pos 1 prev c le_rfl]
  simp only [findClose]
  rw [if_neg (by simp [isQuoteCh, squote]), if_neg (by simp), if_pos (by simp),
    if_neg (by simp)]
  simp

/-- C6 (confirmed): for every source text of the form
`pre ++ header ++ body ++ "\x7d" ++ rest` where the body is well balanced —
in particular its quoted string literals may contain brace characters, which
the scanner must not count — the parameters-only replacement ends exactly at
the block's true closing brace: the result is `pre` followed by the freshly
generated block followed by `rest`, so every byte after the block is
preserved unchanged. -/
theorem c6_theorem (label kw : List Char) (pre hdr : List Char) (segs : List Seg)
    (rest newCode : List Char)
    (hsearch : searchHeader label kw (pre ++ hdr ++ (flatSegs segs ++ '}' :: rest))
        = some (pre.length, pre.length + hdr.length))
    (hok : segsOk segs = true) :
    replaceParamBlock label kw newCode (pre ++ hdr ++ (flatSegs segs ++ '}' :: rest))
      = pre ++ insertedBlock label kw newCode ++ rest := by
  have hdrop : (pre ++ hdr ++ (flatSegs segs ++ '}' :: rest)).drop (pre.length + hdr.length)
      = flatSegs segs ++ '}' :: rest := by
    rw [← List.length_append pre hdr]
    exact List.drop_left _ _
  have htake : (pre ++ hdr ++ (flatSegs segs ++ '}' :: rest)).take pre.length = pre := by
    rw [List.append_assoc]
    exact List.take_left _ _
  have hdrop2 : (pre ++ hdr ++ (flatSegs segs ++ '}' :: rest)).drop
      (pre.length + hdr.length + (flatSegs segs).length + 1) = rest := by
    have hshape : pre ++ hdr ++ (flatSegs segs ++ '}' :: rest)
        = (pre ++ hdr ++ flatSegs segs ++ ['}']) ++ rest := by
      simp
    have hlen : (pre ++ hdr ++ flatSegs segs ++ ['}']).length
        = pre.length + hdr.length + (flatSegs segs).length + 1 := by
      simp
      omega
    rw [hshape, ← hlen]
    exact List.drop_left _ _
  simp only [replaceParamBlock, hsearch, hdrop, findClose_block segs hok,
    Option.getD_some, htake, hdrop2]

/-- Prefix of the C6 witness file, before the INPUT_PARAMS header. -/
def c6pre : List Char := "class A:".data

/-- Header of the C6 witness block, through the opening brace. -/
def c6hdr : List Char := "\n    INPUT_PARAMS = \x7b".data

/-- Body of the C6 witness block: one double-quoted string literal whose
content contains both brace characters. -/
def c6segs : List Seg := [Seg.str '"' "\x7bnot a real brace\x7d".data]

/-- Trailing code of the C6 witness file, after the block. -/
def c6rest : List Char := "\n    x = 1\n".data

/-- C6 witness: the claim on a concrete file whose INPUT_PARAMS body is the
string literal `"\x7bnot a real brace\x7d"` — the quoted braces are not
counted and the trailing code survives byte-for-byte. -/
theorem c6_theorem_witness :
    (searchHeader inLabel inKw (c6pre ++ c6hdr ++ (flatSegs c6segs ++ '}' :: c6rest))
        = some (c6pre.length, c6pre.length + c6hdr.length)) ∧
    segsOk c6segs = true ∧
    replaceParamBlock inLabel inKw [] (c6pre ++ c6hdr ++ (flatSegs c6segs ++ '}' :: c6rest))
      = c6pre ++ insertedBlock inLabel inKw [] ++ c6rest :=
  ⟨by decide, by decide,
   c6_theorem inLabel inKw c6pre c6hdr c6segs c6rest [] (by decide) (by decide)⟩

end CustomNodeService
